import Mathlib

/-!
A shallow embedding of the safety kernel of the `neon` crate (`src/vm.rs`,
`src/mem.rs`): the runtime borrow ledger, the context active-flag discipline,
scoped (nested) contexts, call-frame argument access, and handle
upcast/downcast, together with proofs of the specified properties.

Raw addresses (`*const c_void`) are modelled as naturals (they are only
compared for equality and stored in hash sets, modelled as `Finset`).
A Rust panic is modelled as the error case of `Except Panic`; the JS
exception sentinel `Throw` as the error case of `Except Throw`, with the
pending host exception carried in an explicit `VmState`.
-/

namespace Neon

/-- A raw address (`*const c_void`). -/
abbrev Addr := Nat

/-- `js::LoanError` as used by `vm.rs`: a typed ledger violation, tagged with
the offending address. `Mutating p` means `p` is already exclusively claimed,
`Frozen p` means `p` is already shared-claimed. -/
inductive LoanError where
  | Mutating (p : Addr)
  | Frozen (p : Addr)
  deriving DecidableEq, Repr

/-- `vm::internal::Ledger`: two hash sets of raw addresses, the outstanding
shared (immutable) and exclusive (mutable) claims. -/
structure Ledger where
  immutable_loans : Finset Addr
  mutable_loans : Finset Addr
  deriving DecidableEq

/-- `Ledger::new`: both sets empty. -/
def Ledger.new : Ledger :=
  { immutable_loans := ∅, mutable_loans := ∅ }

/-- `Ledger::try_borrow` (claim_shared): fails with `Mutating p` if `p` is in
the mutable-loans set, otherwise inserts `p` into the immutable-loans set. -/
def Ledger.try_borrow (l : Ledger) (p : Addr) : Except LoanError Ledger :=
  if p ∈ l.mutable_loans then
    .error (.Mutating p)
  else
    .ok { l with immutable_loans := insert p l.immutable_loans }

/-- `Ledger::settle` (release_shared): removes `p` from the immutable-loans set. -/
def Ledger.settle (l : Ledger) (p : Addr) : Ledger :=
  { l with immutable_loans := l.immutable_loans.erase p }

/-- `Ledger::try_borrow_mut` (claim_exclusive): fails with `Mutating p` if `p`
is in the mutable-loans set, then with `Frozen p` if `p` is in the
immutable-loans set, otherwise inserts `p` into the mutable-loans set. -/
def Ledger.try_borrow_mut (l : Ledger) (p : Addr) : Except LoanError Ledger :=
  if p ∈ l.mutable_loans then
    .error (.Mutating p)
  else if p ∈ l.immutable_loans then
    .error (.Frozen p)
  else
    .ok { l with mutable_loans := insert p l.mutable_loans }

/-- `Ledger::settle_mut` (release_exclusive): removes `p` from the
mutable-loans set. -/
def Ledger.settle_mut (l : Ledger) (p : Addr) : Ledger :=
  { l with mutable_loans := l.mutable_loans.erase p }

/-- One ledger operation of a run: the four public ledger methods. -/
inductive LedgerOp where
  | claimShared (p : Addr)
  | claimExclusive (p : Addr)
  | releaseShared (p : Addr)
  | releaseExclusive (p : Addr)
  deriving DecidableEq, Repr

/-- One step of a ledger run. A failed claim leaves the ledger unchanged (the
Rust methods return the error before inserting). Alongside the ledger we keep
a ghost count, per address, of how many successful exclusive claims are
outstanding: a successful `claimExclusive p` adds one, `releaseExclusive p`
removes the claim (the set-remove clears whatever was outstanding on `p`). -/
def LedgerOp.step (s : Ledger × (Addr → Nat)) : LedgerOp → Ledger × (Addr → Nat)
  | .claimShared p =>
      match s.1.try_borrow p with
      | .ok l2 => (l2, s.2)
      | .error _ => s
  | .claimExclusive p =>
      match s.1.try_borrow_mut p with
      | .ok l2 => (l2, Function.update s.2 p (s.2 p + 1))
      | .error _ => s
  | .releaseShared p => (s.1.settle p, s.2)
  | .releaseExclusive p => (s.1.settle_mut p, Function.update s.2 p 0)

/-- Run a sequence of ledger operations from a fresh ledger, with the ghost
exclusive-claim count starting at zero everywhere. -/
def runLedger (ops : List LedgerOp) : Ledger × (Addr → Nat) :=
  ops.foldl LedgerOp.step (Ledger.new, fun _ => 0)

/-- The ledger invariant: no address is both shared- and exclusively claimed,
and the outstanding exclusive-claim count of an address is 1 exactly when the
address is in the mutable-loans set (0 otherwise). -/
def LedgerInv (s : Ledger × (Addr → Nat)) : Prop :=
  (∀ p : Addr, ¬(p ∈ s.1.immutable_loans ∧ p ∈ s.1.mutable_loans)) ∧
  (∀ p : Addr, s.2 p = if p ∈ s.1.mutable_loans then 1 else 0)

/-- `n` successive `try_borrow p` calls, all required to succeed
(`none` as soon as one fails). -/
def claimSharedIter (l : Ledger) (p : Addr) : Nat → Option Ledger
  | 0 => some l
  | n + 1 =>
      match l.try_borrow p with
      | .ok l2 => claimSharedIter l2 p n
      | .error _ => none

/-- The fatal usage error raised by `ContextInternal::check_active`
(the source raises a Rust panic with message "VM context is inactive"). -/
inductive Panic where
  | inactiveContext
  deriving DecidableEq, Repr

/-- `vm::Throw`: the content-free VM-throwing sentinel. -/
inductive Throw where
  | mk
  deriving DecidableEq, Repr

/-- `vm::internal::ScopeMetadata`: the isolate (VM instance identity, modelled
as a natural) and the active flag (a `Cell<bool>`, modelled as explicit
state passing). -/
structure ScopeMetadata where
  isolate : Nat
  active : Bool
  deriving DecidableEq, Repr

/-- `ContextInternal::is_active`. -/
def ScopeMetadata.is_active (md : ScopeMetadata) : Bool :=
  md.active

/-- `ContextInternal::check_active`: a panic when the context is not active,
otherwise nothing. -/
def ScopeMetadata.check_active (md : ScopeMetadata) : Except Panic Unit :=
  if md.is_active then .ok () else .error .inactiveContext

/-- `ContextInternal::activate`. -/
def ScopeMetadata.activate (md : ScopeMetadata) : ScopeMetadata :=
  { md with active := true }

/-- `ContextInternal::deactivate`. -/
def ScopeMetadata.deactivate (md : ScopeMetadata) : ScopeMetadata :=
  { md with active := false }

/-- `vm::VmGuard`: the advisory lock, holding a fresh borrow ledger. -/
structure VmGuard where
  ledger : Ledger

/-- `mem::Handle<'a, T>`: a copyable reference to a rooted value; the phantom
lifetime `'a` (the rooting scope) is modelled as an explicit scope identifier. -/
structure Handle (T : Type) where
  scope : Nat
  value : T

/-- Modelled from the spec: `neon_runtime::scope::escape` (an opaque foreign
binding of the host VM) promotes exactly one rooted value from an inner
escapable scope into the next-outer scope; the value is preserved and only its
rooting scope changes. -/
def escape (outerScope : Nat) (h : Handle α) : Handle α :=
  { h with scope := outerScope }

/-- `Context::lock`: `check_active`, then a fresh `VmGuard` whose ledger is
`Ledger::new`. -/
def Context.lock (md : ScopeMetadata) : Except Panic VmGuard :=
  match md.check_active with
  | .ok _ => .ok ⟨Ledger.new⟩
  | .error e => .error e

/-- `Context::borrow`: lock the VM (which checks the active flag), borrow the
value's internals through the guard (`v`, the `Borrow::borrow` of the
borrowed value, opaque here), and run `f` on the contents. -/
def Context.borrow (md : ScopeMetadata) (v : VmGuard → α) (f : α → β) :
    Except Panic β :=
  match Context.lock md with
  | .ok guard => .ok (f (v guard))
  | .error e => .error e

/-- `Context::borrow_mut`: same shape as `Context::borrow`, with the mutable
borrow of the value's internals opaque. -/
def Context.borrow_mut (md : ScopeMetadata) (v : VmGuard → α) (f : α → β) :
    Except Panic β :=
  match Context.lock md with
  | .ok guard => .ok (f (v guard))
  | .error e => .error e

/-- `Context::execute_scoped`: `check_active`, deactivate the outer context,
run the nested computation in a fresh active `ExecuteContext` scope (same
isolate), reactivate the outer context, return the computation's result. The
nested computation `f` receives the fresh scope's metadata and the outer
context's metadata as it stands during the run. -/
def Context.execute_scoped (md : ScopeMetadata)
    (f : ScopeMetadata → ScopeMetadata → α) : Except Panic (ScopeMetadata × α) :=
  match md.check_active with
  | .error e => .error e
  | .ok _ =>
      let outer := md.deactivate
      let result := f { isolate := md.isolate, active := true } outer
      .ok (outer.activate, result)

/-- `Context::compute_scoped`: `check_active`, deactivate the outer context,
run the nested computation in a fresh active `ComputeContext` scope; on normal
return the escapee handle is promoted into the enclosing scope (`escape`),
and the error sentinel propagates unchanged; the outer context is reactivated
and the result returned. -/
def Context.compute_scoped (md : ScopeMetadata) (outerScope : Nat)
    (f : ScopeMetadata → ScopeMetadata → Except Throw (Handle α)) :
    Except Panic (ScopeMetadata × Except Throw (Handle α)) :=
  match md.check_active with
  | .error e => .error e
  | .ok _ =>
      let outer := md.deactivate
      let result : Except Throw (Handle α) :=
        match f { isolate := md.isolate, active := true } outer with
        | .ok escapee => .ok (escape outerScope escapee)
        | .error t => .error t
      .ok (outer.activate, result)

/-- The runtime tag of a live JS value. -/
inductive ValueTag where
  | number
  | string
  | boolean
  | object
  | array
  | function
  | null
  | undefined
  deriving DecidableEq, Repr, Inhabited

/-- `raw::Local`: an opaque rooted reference into the host VM, modelled as the
host identity of the referenced value plus the runtime tag of the live value. -/
structure Local where
  ident : Nat
  tag : ValueTag
  deriving DecidableEq, Repr, Inhabited

/-- Modelled from the spec: a value kind — an implementation of the `js::Value`
trait, whose source is not under src/ — is a kind name (`Value::name`, used in
diagnostics) together with the runtime type test (`Value::is_typeof`) against a
live value. -/
structure ValueKind where
  name : String
  is_typeof : ValueTag → Bool

/-- The payload of a `Handle<'a, T>` for a JS value type `T`: the static kind
`T` together with the raw `Local` that is `T`'s representation. -/
structure TypedValue where
  kind : ValueKind
  loc : Local

/-- Modelled from the spec: `JsValue`, the kind of any JS value; every live
value passes its runtime test. -/
def JsValueKind : ValueKind :=
  { name := "value", is_typeof := fun _ => true }

/-- Modelled from the spec: `JsNumber`, the kind of JS numbers. -/
def JsNumberKind : ValueKind :=
  { name := "number", is_typeof := fun t => t = ValueTag.number }

/-- `mem::DowncastError`: a typed downcast failure carrying a description. -/
structure DowncastError where
  description : String
  deriving DecidableEq, Repr

/-- `DowncastError::new`: description "failed downcast to " followed by the
target kind's name. -/
def DowncastError.new (U : ValueKind) : DowncastError :=
  { description := "failed downcast to " ++ U.name }

/-- `Handle::eq` (`PartialEq`): `neon_runtime::mem::same_handle`, host-identity
equality of the referenced values (spec §4.2), not structural equality. -/
def Handle.eq (h1 h2 : Handle TypedValue) : Bool :=
  h1.value.loc.ident = h2.value.loc.ident

/-- `Handle::is_a`: the runtime type test of kind `U` against the live value. -/
def Handle.is_a (h : Handle TypedValue) (U : ValueKind) : Bool :=
  U.is_typeof h.value.loc.tag

/-- `Handle::downcast`: `U::downcast` on the payload — modelled from the spec,
a runtime type test against the live value, representation-preserving on
success — wrapped as a new handle with the same lifetime tag on success, or a
`DowncastError::new` on failure. -/
def Handle.downcast (h : Handle TypedValue) (U : ValueKind) :
    Except DowncastError (Handle TypedValue) :=
  if U.is_typeof h.value.loc.tag then
    .ok { scope := h.scope, value := { kind := U, loc := h.value.loc } }
  else
    .error (DowncastError.new U)

/-- `Handle::upcast`: `SuperType::upcast_internal` — modelled from the spec, a
representation-preserving reinterpretation at the supertype kind, performing no
runtime check — wrapped as a handle with the same lifetime tag. -/
def Handle.upcast (h : Handle TypedValue) (U : ValueKind) : Handle TypedValue :=
  { scope := h.scope, value := { kind := U, loc := h.value.loc } }

/-- Modelled from the spec: the declared static supertype relation between
kinds (`js::internal::SuperType`, not under src/): every value passing the
subtype's runtime test passes the supertype's. -/
def SuperTypeOf (U T : ValueKind) : Prop :=
  ∀ t, T.is_typeof t = true → U.is_typeof t = true

/-- `js::error::Kind` as used by `vm.rs` and `mem.rs` (modelled from usage:
only `TypeError` appears in the embedded sources). -/
inductive Kind where
  | Error
  | TypeError
  | RangeError
  deriving DecidableEq, Repr

/-- The host VM's throwing state: the pending exception, if any (spec §7: the
thrown value lives in host VM state, not in native data). -/
structure VmState where
  pending : Option (Kind × String)
  deriving DecidableEq, Repr

/-- Modelled from the spec: `JsError::throw` (in the `js::error` module, not
under src/) puts the host VM into a throwing state recording the pending
host-level error, and returns the content-free VM-throwing sentinel. -/
def JsError.throw (s : VmState) (k : Kind) (msg : String) :
    VmState × Except Throw α :=
  ({ s with pending := some (k, msg) }, .error Throw.mk)

/-- `JsResultExt::unwrap_or_throw` for `DowncastResult` (mem.rs): a successful
downcast passes through; a failed one is promoted to a host-level `TypeError`
carrying the error's description. -/
def unwrap_or_throw (r : Except DowncastError (Handle TypedValue)) (s : VmState) :
    VmState × Except Throw (Handle TypedValue) :=
  match r with
  | .ok v => (s, .ok v)
  | .error e => JsError.throw s Kind.TypeError e.description

/-- `vm::CallbackInfo`: the host VM's raw invocation record — argument slots,
the `this` slot and the call/construct discriminant. Arguments are raw locals;
`get`/`require` wrap them as `JsValue` handles. -/
structure CallbackInfo where
  args : List Local
  this_local : Local
  construct : Bool
  deriving DecidableEq, Repr

/-- `CallbackInfo::len`: the argument count, an `i32` in the source. -/
def CallbackInfo.len (info : CallbackInfo) : Int :=
  info.args.length

/-- `vm::CallKind`: whether the function was called with JavaScript's
`[[Call]]` or `[[Construct]]` semantics. -/
inductive CallKind where
  | Construct
  | Call
  deriving DecidableEq, Repr

/-- `CallbackInfo::kind`: the call/construct discriminant of the frame
(`neon_runtime::call::is_construct` reads the frame's discriminant). -/
def CallbackInfo.kind (info : CallbackInfo) : CallKind :=
  if info.construct then .Construct else .Call

/-- `CallbackInfo::get`: `None` when `i < 0 || i >= len()`, otherwise the
`i`-th argument slot wrapped as a `JsValue` handle rooted in the context's
scope (the context argument is only a lifetime carrier, modelled as the scope
identifier). -/
def CallbackInfo.get (info : CallbackInfo) (scope : Nat) (i : Int) :
    Option (Handle TypedValue) :=
  if i < 0 ∨ i ≥ info.len then
    none
  else
    some { scope := scope,
           value := { kind := JsValueKind, loc := info.args.getD i.toNat default } }

/-- `CallbackInfo::require`: when `i < 0 || i >= len()`, throws the host-level
`TypeError` "not enough arguments" (returning the sentinel); otherwise the
`i`-th argument slot as a `JsValue` handle. -/
def CallbackInfo.require (info : CallbackInfo) (scope : Nat) (s : VmState) (i : Int) :
    VmState × Except Throw (Handle TypedValue) :=
  if i < 0 ∨ i ≥ info.len then
    JsError.throw s Kind.TypeError "not enough arguments"
  else
    (s, .ok { scope := scope,
              value := { kind := JsValueKind, loc := info.args.getD i.toNat default } })

/-- `vm::CallContext`: a scope (metadata plus its identifier standing for the
lifetime `'a`) over the host call frame. -/
structure CallContext where
  scope : ScopeMetadata
  scopeId : Nat
  info : CallbackInfo

/-- `CallContext::len`: delegates to the frame. It takes a shared receiver and
consults only the call frame, never the scope's active flag. -/
def CallContext.len (cx : CallContext) : Int :=
  cx.info.len

/-- `CallContext::kind`: delegates to the frame. It takes a shared receiver and
consults only the call frame, never the scope's active flag. -/
def CallContext.kind (cx : CallContext) : CallKind :=
  cx.info.kind

/-- `CallContext::argument_opt`: delegates to `CallbackInfo::get`. -/
def CallContext.argument_opt (cx : CallContext) (i : Int) :
    Option (Handle TypedValue) :=
  cx.info.get cx.scopeId i

/-- `CallContext::argument`: `CallbackInfo::require`, the `?` propagation of
the sentinel, then `downcast` to the requested kind with `unwrap_or_throw`. -/
def CallContext.argument (cx : CallContext) (V : ValueKind) (s : VmState) (i : Int) :
    VmState × Except Throw (Handle TypedValue) :=
  match cx.info.require cx.scopeId s i with
  | (s2, .error t) => (s2, .error t)
  | (s2, .ok a) => unwrap_or_throw (a.downcast V) s2

/-- A concrete empty call frame (a function invoked with zero arguments). -/
def emptyFrame : CallbackInfo :=
  { args := [],
    this_local := { ident := 0, tag := ValueTag.undefined },
    construct := false }

/-- A concrete call context over `emptyFrame`. -/
def emptyCallCx : CallContext :=
  { scope := { isolate := 0, active := true }, scopeId := 0, info := emptyFrame }

/-- A concrete call frame holding one numeric argument. -/
def oneArgFrame : CallbackInfo :=
  { args := [{ ident := 5, tag := ValueTag.number }],
    this_local := { ident := 0, tag := ValueTag.undefined },
    construct := false }

/-- A concrete call context over `oneArgFrame`. -/
def oneArgCallCx : CallContext :=
  { scope := { isolate := 0, active := true }, scopeId := 0, info := oneArgFrame }

/-- A concrete call context over `oneArgFrame` whose scope metadata has been
deactivated — the state of the outer call context while control is inside a
scoped computation it spawned. -/
def inactiveCallCx : CallContext :=
  { scope := { isolate := 0, active := false }, scopeId := 0, info := oneArgFrame }

end Neon

namespace Neon

theorem ledgerInv_step (s : Ledger × (Addr → Nat)) (op : LedgerOp) (h : LedgerInv s) :
    LedgerInv (LedgerOp.step s op) := by
  obtain ⟨l, c⟩ := s
  obtain ⟨hdisj, hcount⟩ := h
  replace hdisj : ∀ q : Addr, ¬(q ∈ l.immutable_loans ∧ q ∈ l.mutable_loans) := hdisj
  replace hcount : ∀ q : Addr, c q = if q ∈ l.mutable_loans then 1 else 0 := hcount
  cases op with
  | claimShared p =>
      by_cases hp : p ∈ l.mutable_loans
      · simpa [LedgerOp.step, Ledger.try_borrow, hp] using ⟨hdisj, hcount⟩
      · refine ⟨?_, ?_⟩ <;> intro q <;>
          simp only [LedgerOp.step, Ledger.try_borrow, hp, if_false, Finset.mem_insert]
        · rintro ⟨(rfl | hq), hqm⟩
          · exact hp hqm
          · exact hdisj q ⟨hq, hqm⟩
        · exact hcount q
  | claimExclusive p =>
      by_cases hpm : p ∈ l.mutable_loans
      · simpa [LedgerOp.step, Ledger.try_borrow_mut, hpm] using ⟨hdisj, hcount⟩
      · by_cases hpi : p ∈ l.immutable_loans
        · simpa [LedgerOp.step, Ledger.try_borrow_mut, hpm, hpi] using ⟨hdisj, hcount⟩
        · refine ⟨?_, ?_⟩ <;> intro q <;>
            simp only [LedgerOp.step, Ledger.try_borrow_mut, hpm, hpi, if_false,
              Finset.mem_insert]
          · rintro ⟨hq, (rfl | hqm)⟩
            · exact hpi hq
            · exact hdisj q ⟨hq, hqm⟩
          · by_cases hqp : q = p
            · subst hqp
              simp [Function.update, hcount q, hpm]
            · simp [Function.update, hqp, hcount q]
  | releaseShared p =>
      refine ⟨?_, ?_⟩ <;> intro q <;>
        simp only [LedgerOp.step, Ledger.settle, Finset.mem_erase]
      · rintro ⟨⟨_, hq⟩, hqm⟩
        exact hdisj q ⟨hq, hqm⟩
      · exact hcount q
  | releaseExclusive p =>
      refine ⟨?_, ?_⟩ <;> intro q <;>
        simp only [LedgerOp.step, Ledger.settle_mut, Finset.mem_erase]
      · rintro ⟨hq, ⟨_, hqm⟩⟩
        exact hdisj q ⟨hq, hqm⟩
      · by_cases hqp : q = p
        · subst hqp
          simp [Function.update]
        · simp [Function.update, hqp, hcount q]

theorem ledgerInv_foldl (ops : List LedgerOp) (s : Ledger × (Addr → Nat))
    (h : LedgerInv s) : LedgerInv (ops.foldl LedgerOp.step s) := by
  induction ops generalizing s with
  | nil => exact h
  | cons op rest ih => exact ih _ (ledgerInv_step s op h)

theorem ledgerInv_new : LedgerInv (Ledger.new, fun _ => 0) := by
  constructor <;> intro p <;> simp [Ledger.new]

/-- C1: starting from a fresh ledger, after any sequence of claim/release
operations (failed claims leaving the state unchanged), no raw address is ever
simultaneously shared- and exclusively claimed, and no address carries more
than one outstanding exclusive claim. -/
theorem ledger_exclusion_invariant (ops : List LedgerOp) (p : Addr) :
    ¬(p ∈ (runLedger ops).1.immutable_loans ∧ p ∈ (runLedger ops).1.mutable_loans) ∧
    (runLedger ops).2 p ≤ 1 := by
  have h := ledgerInv_foldl ops (Ledger.new, fun _ => 0) ledgerInv_new
  refine ⟨h.1 p, ?_⟩
  have := h.2 p
  unfold runLedger
  rw [this]
  split <;> omega

/-- C2: `try_borrow` (claim_shared) fails exactly when the address is
exclusively claimed, with error `Mutating p`, and otherwise records a shared
claim; `try_borrow_mut` (claim_exclusive) fails exactly when the address is
exclusively claimed (`Mutating p`) or shared-claimed (`Frozen p`), and
otherwise records an exclusive claim. -/
theorem ledger_claim_conditions (l : Ledger) (p : Addr) :
    ((l.try_borrow p).isOk = true ↔ p ∉ l.mutable_loans) ∧
    (p ∈ l.mutable_loans → l.try_borrow p = .error (.Mutating p)) ∧
    (p ∉ l.mutable_loans →
      l.try_borrow p = .ok { l with immutable_loans := insert p l.immutable_loans }) ∧
    ((l.try_borrow_mut p).isOk = true ↔ (p ∉ l.mutable_loans ∧ p ∉ l.immutable_loans)) ∧
    (p ∈ l.mutable_loans → l.try_borrow_mut p = .error (.Mutating p)) ∧
    (p ∉ l.mutable_loans → p ∈ l.immutable_loans →
      l.try_borrow_mut p = .error (.Frozen p)) ∧
    (p ∉ l.mutable_loans → p ∉ l.immutable_loans →
      l.try_borrow_mut p = .ok { l with mutable_loans := insert p l.mutable_loans }) := by
  by_cases hm : p ∈ l.mutable_loans <;> by_cases hi : p ∈ l.immutable_loans <;>
    simp [Ledger.try_borrow, Ledger.try_borrow_mut, Except.isOk, Except.toBool, hm, hi]

/-- C8: `settle` / `settle_mut` remove the respective claim, are no-ops when
the claim is absent (and idempotent), and after a release the claim kind that
the released claim was blocking succeeds again. -/
theorem ledger_release_semantics (l : Ledger) (p : Addr) :
    p ∉ (l.settle p).immutable_loans ∧
    (l.settle p).mutable_loans = l.mutable_loans ∧
    p ∉ (l.settle_mut p).mutable_loans ∧
    (l.settle_mut p).immutable_loans = l.immutable_loans ∧
    (p ∉ l.immutable_loans → l.settle p = l) ∧
    (p ∉ l.mutable_loans → l.settle_mut p = l) ∧
    (l.settle p).settle p = l.settle p ∧
    (l.settle_mut p).settle_mut p = l.settle_mut p ∧
    (l.try_borrow_mut p = .error (.Frozen p) →
      ((l.settle p).try_borrow_mut p).isOk = true) ∧
    (l.try_borrow p = .error (.Mutating p) →
      ((l.settle_mut p).try_borrow p).isOk = true) ∧
    (l.try_borrow_mut p = .error (.Mutating p) → p ∉ l.immutable_loans →
      ((l.settle_mut p).try_borrow_mut p).isOk = true) := by
  obtain ⟨im, mu⟩ := l
  by_cases hm : p ∈ mu <;> by_cases hi : p ∈ im <;>
    simp [Ledger.settle, Ledger.settle_mut, Ledger.try_borrow, Ledger.try_borrow_mut,
      Except.isOk, Except.toBool, hm, hi, Finset.erase_eq_of_not_mem]

theorem try_borrow_ok_inv (l l2 : Ledger) (p : Addr) (h : l.try_borrow p = .ok l2) :
    l2.mutable_loans = l.mutable_loans ∧ p ∉ l.mutable_loans ∧
    l2 = { l with immutable_loans := insert p l.immutable_loans } := by
  by_cases hm : p ∈ l.mutable_loans <;> simp [Ledger.try_borrow, hm] at h
  exact ⟨by rw [← h], hm, h.symm⟩

theorem claimSharedIter_mutable (p : Addr) :
    ∀ (n : Nat) (l ln : Ledger), claimSharedIter l p n = some ln →
      ln.mutable_loans = l.mutable_loans := by
  intro n
  induction n with
  | zero =>
      intro l ln h
      simp [claimSharedIter] at h
      rw [h]
  | succ n ih =>
      intro l ln h
      rw [claimSharedIter] at h
      cases htb : l.try_borrow p with
      | ok l2 =>
          rw [htb] at h
          simp only [] at h
          rw [ih l2 ln h, (try_borrow_ok_inv l l2 p htb).1]
      | error e =>
          rw [htb] at h
          simp at h

/-- C9: shared claims are a set, not a count: a second `try_borrow` on the
same address succeeds and changes nothing, and after any positive number of
successful shared claims a single `settle` removes the shared claim entirely,
so `try_borrow_mut` then succeeds. -/
theorem shared_claims_form_a_set (l : Ledger) (p : Addr) :
    (∀ l1, l.try_borrow p = .ok l1 → l1.try_borrow p = .ok l1) ∧
    (∀ n ln, claimSharedIter l p (n + 1) = some ln →
      p ∉ (ln.settle p).immutable_loans ∧
      ((ln.settle p).try_borrow_mut p).isOk = true) := by
  constructor
  · intro l1 h
    obtain ⟨hmut, hm, hl1⟩ := try_borrow_ok_inv l l1 p h
    subst hl1
    simp [Ledger.try_borrow, hm, Finset.insert_idem]
  · intro n ln h
    rw [claimSharedIter] at h
    cases htb : l.try_borrow p with
    | ok l2 =>
        rw [htb] at h
        simp only [] at h
        obtain ⟨hmut2, hm, _⟩ := try_borrow_ok_inv l l2 p htb
        have hln : ln.mutable_loans = l.mutable_loans := by
          rw [claimSharedIter_mutable p n l2 ln h, hmut2]
        have hpm : p ∉ (ln.settle p).mutable_loans := by
          simp [Ledger.settle, hln, hm]
        have hpi : p ∉ (ln.settle p).immutable_loans := by
          simp [Ledger.settle]
        refine ⟨hpi, ?_⟩
        simp [Ledger.try_borrow_mut, Except.isOk, Except.toBool, hpm, hpi]
    | error e =>
        rw [htb] at h
        simp at h

/-- C3 counterexample to the claim as frozen: `CallContext::len` (vm.rs line
665) and `CallContext::kind` (vm.rs line 652) are operations performed through
a context; both take a shared receiver — so they are invocable on the
deactivated outer context from inside a scoped closure — perform no
`check_active`, and silently return the frame's data: here a call context
whose active flag is false yields the argument count and the call
discriminant normally instead of failing fatally. -/
theorem inactive_call_context_len_kind_proceed :
    inactiveCallCx.scope.active = false ∧
    CallContext.len inactiveCallCx = 1 ∧
    CallContext.kind inactiveCallCx = CallKind.Call :=
  ⟨rfl, rfl, rfl⟩

/-- C3 (amended): every operation performable through an inactive context
that consults the scope — `lock`, `borrow`, `borrow_mut`, `execute_scoped`
and `compute_scoped`, all of which fence through `check_active` — fails
immediately and fatally with the inactive-context panic, every time; the
exceptions are the call-frame metadata reads `CallContext::len` and
`CallContext::kind`, which never consult the active flag and return the
frame's data normally even through an inactive context. -/
theorem inactive_context_operations_panic (md : ScopeMetadata)
    (h : md.active = false) :
    md.check_active = .error Panic.inactiveContext ∧
    Context.lock md = .error Panic.inactiveContext ∧
    (∀ (α β : Type) (v : VmGuard → α) (f : α → β),
      Context.borrow md v f = .error Panic.inactiveContext) ∧
    (∀ (α β : Type) (v : VmGuard → α) (f : α → β),
      Context.borrow_mut md v f = .error Panic.inactiveContext) ∧
    (∀ (α : Type) (f : ScopeMetadata → ScopeMetadata → α),
      Context.execute_scoped md f = .error Panic.inactiveContext) ∧
    (∀ (α : Type) (os : Nat)
      (f : ScopeMetadata → ScopeMetadata → Except Throw (Handle α)),
      Context.compute_scoped md os f = .error Panic.inactiveContext) ∧
    (∀ (fr : CallbackInfo) (sid : Nat),
      CallContext.len ⟨md, sid, fr⟩ = fr.len ∧
      CallContext.kind ⟨md, sid, fr⟩ = fr.kind) := by
  simp [ScopeMetadata.check_active, ScopeMetadata.is_active, Context.lock,
    Context.borrow, Context.borrow_mut, Context.execute_scoped,
    Context.compute_scoped, CallContext.len, CallContext.kind, h]

/-- Witness for C3 (amended) at a concrete inactive context. -/
theorem inactive_context_operations_panic_witness :
    ScopeMetadata.check_active ⟨0, false⟩ = .error Panic.inactiveContext ∧
    Context.lock ⟨0, false⟩ = .error Panic.inactiveContext ∧
    (∀ (α β : Type) (v : VmGuard → α) (f : α → β),
      Context.borrow ⟨0, false⟩ v f = .error Panic.inactiveContext) ∧
    (∀ (α β : Type) (v : VmGuard → α) (f : α → β),
      Context.borrow_mut ⟨0, false⟩ v f = .error Panic.inactiveContext) ∧
    (∀ (α : Type) (f : ScopeMetadata → ScopeMetadata → α),
      Context.execute_scoped ⟨0, false⟩ f = .error Panic.inactiveContext) ∧
    (∀ (α : Type) (os : Nat)
      (f : ScopeMetadata → ScopeMetadata → Except Throw (Handle α)),
      Context.compute_scoped ⟨0, false⟩ os f = .error Panic.inactiveContext) ∧
    (∀ (fr : CallbackInfo) (sid : Nat),
      CallContext.len ⟨⟨0, false⟩, sid, fr⟩ = fr.len ∧
      CallContext.kind ⟨⟨0, false⟩, sid, fr⟩ = fr.kind) :=
  inactive_context_operations_panic ⟨0, false⟩ rfl

/-- C4: for an active outer context, `execute_scoped` and `compute_scoped`
deactivate the outer context first, run the nested computation in a fresh
active scope with the outer metadata inactive throughout, reactivate the
outer context (so its metadata afterwards equals the original active
metadata), and return the nested computation's result — for `compute_scoped`
the escapee handle promoted, value intact, into the enclosing scope. -/
theorem scoped_deactivate_reactivate (md : ScopeMetadata) (h : md.active = true) :
    md.check_active = .ok () ∧
    (∀ (α : Type) (f : ScopeMetadata → ScopeMetadata → α),
      Context.execute_scoped md f
        = .ok (md, f ⟨md.isolate, true⟩ ⟨md.isolate, false⟩)) ∧
    (∀ (α : Type) (os : Nat)
      (f : ScopeMetadata → ScopeMetadata → Except Throw (Handle α)),
      Context.compute_scoped md os f
        = .ok (md, (f ⟨md.isolate, true⟩ ⟨md.isolate, false⟩).map (escape os)) ∧
      (∀ hv, f ⟨md.isolate, true⟩ ⟨md.isolate, false⟩ = .ok hv →
        Context.compute_scoped md os f = .ok (md, .ok ⟨os, hv.value⟩))) := by
  obtain ⟨iso, a⟩ := md
  replace h : a = true := h
  subst h
  refine ⟨rfl, ?_, ?_⟩
  · intro α f
    simp [Context.execute_scoped, ScopeMetadata.check_active,
      ScopeMetadata.is_active, ScopeMetadata.deactivate, ScopeMetadata.activate]
  · intro α os f
    constructor
    · cases hf : f ⟨iso, true⟩ ⟨iso, false⟩ <;>
        simp [Context.compute_scoped, ScopeMetadata.check_active,
          ScopeMetadata.is_active, ScopeMetadata.deactivate,
          ScopeMetadata.activate, hf, Except.map, escape]
    · intro hv hok
      simp [Context.compute_scoped, ScopeMetadata.check_active,
        ScopeMetadata.is_active, ScopeMetadata.deactivate,
        ScopeMetadata.activate, hok, escape]

/-- Witness for C4 at a concrete active context and concrete nested
computations. -/
theorem scoped_deactivate_reactivate_witness :
    ScopeMetadata.check_active ⟨0, true⟩ = .ok () ∧
    (∀ (α : Type) (f : ScopeMetadata → ScopeMetadata → α),
      Context.execute_scoped ⟨0, true⟩ f = .ok (⟨0, true⟩, f ⟨0, true⟩ ⟨0, false⟩)) ∧
    (∀ (α : Type) (os : Nat)
      (f : ScopeMetadata → ScopeMetadata → Except Throw (Handle α)),
      Context.compute_scoped ⟨0, true⟩ os f
        = .ok (⟨0, true⟩, (f ⟨0, true⟩ ⟨0, false⟩).map (escape os)) ∧
      (∀ hv, f ⟨0, true⟩ ⟨0, false⟩ = .ok hv →
        Context.compute_scoped ⟨0, true⟩ os f = .ok (⟨0, true⟩, .ok ⟨os, hv.value⟩))) :=
  scoped_deactivate_reactivate ⟨0, true⟩ rfl

/-- C5: for an index at or past the argument count, `CallbackInfo::get`
(hence `CallContext::argument_opt`) returns `none`, and `CallbackInfo::require`
(hence `CallContext::argument`) throws the host-level `TypeError` with message
"not enough arguments", returning the VM-throwing sentinel, without reading an
argument slot. -/
theorem out_of_range_argument_access (cx : CallContext) (s : VmState)
    (V : ValueKind) (i : Int) (h : i ≥ cx.info.len) :
    cx.info.get cx.scopeId i = none ∧
    cx.info.require cx.scopeId s i
      = ({ s with pending := some (Kind.TypeError, "not enough arguments") },
         .error Throw.mk) ∧
    cx.argument_opt i = none ∧
    cx.argument V s i
      = ({ s with pending := some (Kind.TypeError, "not enough arguments") },
         .error Throw.mk) := by
  simp [CallbackInfo.get, CallbackInfo.require, CallContext.argument_opt,
    CallContext.argument, JsError.throw, h]

/-- Witness for C5: a zero-argument call frame accessed at index 0. -/
theorem out_of_range_argument_access_witness :
    CallbackInfo.get emptyCallCx.info emptyCallCx.scopeId 0 = none ∧
    CallbackInfo.require emptyCallCx.info emptyCallCx.scopeId ⟨none⟩ 0
      = ({ pending := some (Kind.TypeError, "not enough arguments") },
         .error Throw.mk) ∧
    CallContext.argument_opt emptyCallCx 0 = none ∧
    CallContext.argument emptyCallCx JsNumberKind ⟨none⟩ 0
      = ({ pending := some (Kind.TypeError, "not enough arguments") },
         .error Throw.mk) :=
  out_of_range_argument_access emptyCallCx ⟨none⟩ JsNumberKind 0 (by decide)

/-- C10: a negative argument index is rejected exactly like an index at or
past the argument count: `CallbackInfo::get` (hence `argument_opt`) returns
`none` and `CallbackInfo::require` (hence `argument`) throws the host-level
`TypeError` "not enough arguments", without reading an argument slot. -/
theorem negative_argument_index_rejected (cx : CallContext) (s : VmState)
    (V : ValueKind) (i : Int) (h : i < 0) :
    cx.info.get cx.scopeId i = none ∧
    cx.info.require cx.scopeId s i
      = ({ s with pending := some (Kind.TypeError, "not enough arguments") },
         .error Throw.mk) ∧
    cx.argument_opt i = none ∧
    cx.argument V s i
      = ({ s with pending := some (Kind.TypeError, "not enough arguments") },
         .error Throw.mk) := by
  simp [CallbackInfo.get, CallbackInfo.require, CallContext.argument_opt,
    CallContext.argument, JsError.throw, h]

/-- Witness for C10: a one-argument call frame accessed at index -1. -/
theorem negative_argument_index_rejected_witness :
    CallbackInfo.get oneArgCallCx.info oneArgCallCx.scopeId (-1) = none ∧
    CallbackInfo.require oneArgCallCx.info oneArgCallCx.scopeId ⟨none⟩ (-1)
      = ({ pending := some (Kind.TypeError, "not enough arguments") },
         .error Throw.mk) ∧
    CallContext.argument_opt oneArgCallCx (-1) = none ∧
    CallContext.argument oneArgCallCx JsNumberKind ⟨none⟩ (-1)
      = ({ pending := some (Kind.TypeError, "not enough arguments") },
         .error Throw.mk) :=
  negative_argument_index_rejected oneArgCallCx ⟨none⟩ JsNumberKind (-1) (by decide)

/-- C6: downcast to a kind succeeds exactly when the runtime type test of that
kind against the live value passes; on success the result has the target kind,
the same lifetime tag and the same underlying value; on failure the error's
description is "failed downcast to " followed by the kind's name, and
`unwrap_or_throw` promotes the failure to a host-level `TypeError` carrying
that same description. -/
theorem downcast_correctness (h : Handle TypedValue) (U : ValueKind) (s : VmState) :
    ((h.downcast U).isOk = true ↔ h.is_a U = true) ∧
    (h.is_a U = true →
      h.downcast U
        = .ok { scope := h.scope, value := { kind := U, loc := h.value.loc } }) ∧
    (h.is_a U = false →
      h.downcast U = .error { description := "failed downcast to " ++ U.name }) ∧
    (∀ e, h.downcast U = .error e →
      e.description = "failed downcast to " ++ U.name) ∧
    (∀ e, h.downcast U = .error e →
      unwrap_or_throw (h.downcast U) s
        = ({ s with
              pending := some (Kind.TypeError, "failed downcast to " ++ U.name) },
           .error Throw.mk)) := by
  by_cases ht : U.is_typeof h.value.loc.tag = true <;>
    simp [Handle.downcast, Handle.is_a, DowncastError.new, unwrap_or_throw,
      JsError.throw, Except.isOk, Except.toBool, ht]

/-- C7: upcast to a declared supertype kind is total, representation-preserving
and performs no runtime check (same lifetime tag, same underlying value, the
kind merely reinterpreted); downcasting the upcast handle back to the original
kind succeeds, and the result is identity-equal (host identity) to the
original handle. -/
theorem upcast_downcast_roundtrip (h : Handle TypedValue) (U : ValueKind)
    (hsup : SuperTypeOf U h.value.kind)
    (hwf : h.value.kind.is_typeof h.value.loc.tag = true) :
    (h.upcast U).scope = h.scope ∧
    (h.upcast U).value.loc = h.value.loc ∧
    (h.upcast U).value.kind = U ∧
    (h.upcast U).downcast h.value.kind = .ok h ∧
    (∀ h2, (h.upcast U).downcast h.value.kind = .ok h2 → Handle.eq h2 h = true) := by
  obtain ⟨sc, k, lc⟩ := h
  replace hwf : k.is_typeof lc.tag = true := hwf
  refine ⟨rfl, rfl, rfl, ?_, ?_⟩
  · simp [Handle.upcast, Handle.downcast, hwf]
  · intro h2 hok
    simp [Handle.upcast, Handle.downcast, hwf] at hok
    rw [← hok]
    simp [Handle.eq]

/-- Witness for C7: a number handle upcast to the universal value kind and
downcast back. -/
theorem upcast_downcast_roundtrip_witness :
    (Handle.upcast ⟨0, ⟨JsNumberKind, ⟨7, ValueTag.number⟩⟩⟩ JsValueKind).scope = 0 ∧
    (Handle.upcast ⟨0, ⟨JsNumberKind, ⟨7, ValueTag.number⟩⟩⟩ JsValueKind).value.loc
      = ⟨7, ValueTag.number⟩ ∧
    (Handle.upcast ⟨0, ⟨JsNumberKind, ⟨7, ValueTag.number⟩⟩⟩ JsValueKind).value.kind
      = JsValueKind ∧
    (Handle.upcast ⟨0, ⟨JsNumberKind, ⟨7, ValueTag.number⟩⟩⟩ JsValueKind).downcast
        JsNumberKind
      = .ok ⟨0, ⟨JsNumberKind, ⟨7, ValueTag.number⟩⟩⟩ ∧
    (∀ h2,
      (Handle.upcast ⟨0, ⟨JsNumberKind, ⟨7, ValueTag.number⟩⟩⟩ JsValueKind).downcast
          JsNumberKind
        = .ok h2 →
      Handle.eq h2 ⟨0, ⟨JsNumberKind, ⟨7, ValueTag.number⟩⟩⟩ = true) :=
  upcast_downcast_roundtrip ⟨0, ⟨JsNumberKind, ⟨7, ValueTag.number⟩⟩⟩ JsValueKind
    (fun _ _ => rfl) (by decide)

end Neon
